import Mathlib

/-!
Shallow embedding of the ServiceManager repository.

The repository holds two parallel implementations of the same server:

* `src/ServiceManager-main/src/Server/` — the documented implementation
  (ProcessRunner.cpp, main.cpp with loadConfiguration/startHttpServer);
  embedded below in namespace `SM`.
* `src/src/Server/` — the older implementation (ProcessRunner.cpp, main.cpp
  with ReadCmds/ServerSide); embedded below in namespace `Legacy`.

OS-level effects (fork, signal delivery, waitpid of the docker helper) are
modelled by an oracle `OsEnv` giving the results the parent process observes,
and by a trace of `OsAction`s the operation performs against the OS.
-/

/-- `enum STATUS` from command.hpp. -/
inductive STATUS where
  | DEAD : STATUS
  | RUNNING : STATUS
deriving DecidableEq, Repr

export STATUS (DEAD RUNNING)

/-- `struct command` from command.hpp: description, command line / container
name, mode character, working directory, runtime status and pid.
`Status` is a C++ `short` that only ever holds the two enum values, so it is
modelled by `STATUS`; `Pid` (`int`, pid_t) is modelled by `Int`. -/
structure command where
  Desc : String
  Path : String
  Mode : Char
  Folder : String
  Status : STATUS
  Pid : Int
deriving DecidableEq, Repr

/-- Numeric value of a `STATUS` as stored in the C++ `short`. -/
def statusShort : STATUS → Nat
  | DEAD => 0
  | RUNNING => 1

/-- OS-level operations a supervisor call performs, as observed by the OS:
forking a child that will exec `argv` (empty `argv` when the child exits
without exec-ing, i.e. on an unknown mode), delivering a signal, forking a
docker helper subprocess, and waiting (`waitpid`) for that helper. -/
inductive OsAction where
  | forkChild (argv : List String) : OsAction
  | signal (pid : Int) (sig : Nat) : OsAction
  | spawnHelper (argv : List String) : OsAction
  | waitHelper (pid : Int) : OsAction
deriving DecidableEq, Repr

def SIGKILL : Nat := 9

def SIGTERM : Nat := 15

/-- Oracle for the results of the OS primitives, as seen by the parent:
`forkPid` is the value `fork()` returns in `start` (negative on failure,
the child's pid on success), `killOk` is whether `::kill(pid, sig) == 0`,
`helperFork` is the value `fork()` returns for the docker helper in `kill`,
and `helperExited`/`helperCode` are `WIFEXITED(status)`/`WEXITSTATUS(status)`
for the waited helper. -/
structure OsEnv where
  forkPid : Int
  killOk : Bool
  helperFork : Int
  helperExited : Bool
  helperCode : Nat
deriving DecidableEq, Repr

/-- Result of `ProcessRunner::start`: the updated registry, the returned
pid (or -1), and the OS actions performed. -/
structure StartResult where
  cmds : List command
  pid : Int
  acts : List OsAction
deriving DecidableEq, Repr

/-- Result of `ProcessRunner::kill`: the updated registry, the returned
boolean, and the OS actions performed. -/
structure KillResult where
  cmds : List command
  ok : Bool
  acts : List OsAction
deriving DecidableEq, Repr

/-- An HTTP request to POST /process/control: the optional `fn` and `id`
form parameters. -/
structure HttpReq where
  fnParam : Option String
  idParam : Option String
deriving DecidableEq, Repr

/-- An HTTP response: status code and body. -/
structure HttpResp where
  status : Nat
  body : String
deriving DecidableEq, Repr

/-- Result of a control-endpoint handler: the updated registry, the HTTP
status code, the response body, and the OS actions performed. -/
structure CtrlResult where
  cmds : List command
  status : Nat
  body : String
  acts : List OsAction
deriving DecidableEq, Repr

/-- Whitespace in the sense of `std::isspace` (default locale). -/
def isWs (c : Char) : Bool :=
  c = ' ' ∨ c = '\t' ∨ c = '\n' ∨ c = '\r' ∨ c = '\x0B' ∨ c = '\x0C'

def isDigitCh (c : Char) : Bool := '0' ≤ c ∧ c ≤ '9'

def digitVal (c : Char) : Nat := c.toNat - '0'.toNat

/-- `std::stoi` on the full string, as used by both control handlers:
skips leading whitespace, reads an optional sign and a digit run, ignores
any trailing characters. Returns `none` both when no digits can be read
(`std::invalid_argument`) and when the value does not fit in a C++ `int`
(`std::out_of_range`); the callers catch both exceptions identically. -/
def stoi (s : String) : Option Int :=
  let cs := s.data.dropWhile isWs
  let signAndRest : Bool × List Char :=
    match cs with
    | '-' :: r => (true, r)
    | '+' :: r => (false, r)
    | r => (false, r)
  let ds := signAndRest.2.takeWhile isDigitCh
  if ds = [] then none
  else
    let mag : Nat := ds.foldl (fun a c => a * 10 + digitVal c) 0
    let v : Int := if signAndRest.1 then -(mag : Int) else (mag : Int)
    if v < -2147483648 ∨ 2147483647 < v then none else some v

/-- Token accumulator for `splitCommand`: walk the characters, flushing the
(reversed) current token at each whitespace boundary and at the end. -/
def splitTokens : List Char → List Char → List String
  | [], acc => if acc = [] then [] else [String.mk acc.reverse]
  | c :: rest, acc =>
    if isWs c then
      if acc = [] then splitTokens rest []
      else String.mk acc.reverse :: splitTokens rest []
    else splitTokens rest (c :: acc)

/-- `ProcessRunner::splitCommand` / `split_cmd`: whitespace tokenization via
`std::istringstream >>`, i.e. the maximal whitespace-free tokens in order. -/
def splitCommand (s : String) : List String :=
  splitTokens s.data []

/-- The argv the forked child execs, by mode: mode 'C' execs the tokenized
command line, mode 'D' execs docker start on it; on any other mode the child
exits without exec-ing (represented by `[]`). Both implementations use the
same child code shape in `start`. -/
def childArgv (mode : Char) (path : String) : List String :=
  if mode = 'C' then splitCommand path
  else if mode = 'D' then "docker" :: "start" :: splitCommand path
  else []

/-- `escapeJsonString` from ServiceManager-main/src/Server/main.cpp. -/
def escapeJsonString (s : String) : String :=
  s.data.foldl
    (fun acc c =>
      acc ++
        (if c = '"' then "\\\""
         else if c = '\\' then "\\\\"
         else if c = '\x08' then "\\b"
         else if c = '\x0C' then "\\f"
         else if c = '\n' then "\\n"
         else if c = '\r' then "\\r"
         else if c = '\t' then "\\t"
         else String.singleton c)) ""

/-- The naive escaping in the src/src list handler: prefix a backslash
before a quote or backslash character. -/
def legacyEscape (s : String) : String :=
  s.data.foldl
    (fun acc c =>
      acc ++ (if c = '"' ∨ c = '\\' then "\\" ++ String.singleton c
              else String.singleton c)) ""

namespace SM

/-- `ProcessRunner::ProcessRunner` (ServiceManager-main): resets every
entry to `Pid = -1`, `Status = DEAD`. -/
def init (cmds : List command) : List command :=
  cmds.map fun c => { c with Pid := -1, Status := DEAD }

/-- `ProcessRunner::start` (ServiceManager-main/src/Server/ProcessRunner.cpp,
lines 53-149), from the parent's point of view. Checks the index, returns the
recorded pid if the entry is already running with a positive pid, rejects an
empty command path, then forks; on fork failure returns -1 leaving the entry
untouched, otherwise records the child pid and RUNNING. -/
def start (cmds : List command) (index : Nat) (env : OsEnv) : StartResult :=
  match cmds[index]? with
  | none => ⟨cmds, -1, []⟩
  | some cmd =>
    if cmd.Status = RUNNING ∧ 0 < cmd.Pid then ⟨cmds, cmd.Pid, []⟩
    else if cmd.Path = "" then ⟨cmds, -1, []⟩
    else if env.forkPid < 0 then ⟨cmds, -1, []⟩
    else
      ⟨cmds.set index { cmd with Pid := env.forkPid, Status := RUNNING },
       env.forkPid, [OsAction.forkChild (childArgv cmd.Mode cmd.Path)]⟩

/-- `ProcessRunner::kill` (ServiceManager-main/src/Server/ProcessRunner.cpp,
lines 151-222). Mode 'C': send SIGKILL/SIGTERM to the recorded pid, and on
success mark DEAD with pid -1. Mode 'D': fork a docker stop/kill helper,
wait for it, and mark DEAD with pid -1 exactly when the helper exited with
code 0. Unknown mode: return false. -/
def kill (cmds : List command) (index : Nat) (force : Bool) (env : OsEnv) :
    KillResult :=
  match cmds[index]? with
  | none => ⟨cmds, false, []⟩
  | some cmd =>
    if ¬ (cmd.Status = RUNNING ∧ 0 < cmd.Pid) then ⟨cmds, false, []⟩
    else if cmd.Mode = 'C' then
      if env.killOk then
        ⟨cmds.set index { cmd with Status := DEAD, Pid := -1 }, true,
         [OsAction.signal cmd.Pid (if force then SIGKILL else SIGTERM)]⟩
      else ⟨cmds, false, [OsAction.signal cmd.Pid (if force then SIGKILL else SIGTERM)]⟩
    else if cmd.Mode = 'D' then
      if env.helperFork < 0 then ⟨cmds, false, []⟩
      else
        if env.helperExited ∧ env.helperCode = 0 then
          ⟨cmds.set index { cmd with Status := DEAD, Pid := -1 }, true,
           [OsAction.spawnHelper ["docker", if force then "kill" else "stop", cmd.Path],
            OsAction.waitHelper env.helperFork]⟩
        else
          ⟨cmds, false,
           [OsAction.spawnHelper ["docker", if force then "kill" else "stop", cmd.Path],
            OsAction.waitHelper env.helperFork]⟩
    else ⟨cmds, false, []⟩

/-- `ProcessRunner::getPid` (ServiceManager-main). -/
def getPid (cmds : List command) (index : Nat) : Int :=
  match cmds[index]? with
  | none => -1
  | some cmd => cmd.Pid

/-- `ProcessRunner::isRunning` (ServiceManager-main). -/
def isRunning (cmds : List command) (index : Nat) : Bool :=
  match cmds[index]? with
  | none => false
  | some cmd => cmd.Status = RUNNING ∧ 0 < cmd.Pid

end SM

namespace Legacy

/-- `ProcessRunner::start` (src/src/Server/ProcessRunner.cpp, lines 31-120),
from the parent's point of view. No already-running check: checks the index
and that the command line is nonempty, then forks and unconditionally records
the child pid and RUNNING. -/
def start (cmds : List command) (index : Nat) (env : OsEnv) : StartResult :=
  match cmds[index]? with
  | none => ⟨cmds, -1, []⟩
  | some cmd =>
    if cmd.Path = "" then ⟨cmds, -1, []⟩
    else if env.forkPid < 0 then ⟨cmds, -1, []⟩
    else
      ⟨cmds.set index { cmd with Pid := env.forkPid, Status := RUNNING },
       env.forkPid, [OsAction.forkChild (childArgv cmd.Mode cmd.Path)]⟩

/-- `ProcessRunner::kill` (src/src/Server/ProcessRunner.cpp, lines 121-179).
Guards only on `Pid <= 0` (not on `Status`). Mode 'C': send the signal and on
success set `Status = DEAD` without resetting `Pid`. Mode 'D': fork a docker
stop/kill helper and, without waiting for it, set `Status = DEAD` (again
keeping `Pid`) and return true. -/
def kill (cmds : List command) (index : Nat) (force : Bool) (env : OsEnv) :
    KillResult :=
  match cmds[index]? with
  | none => ⟨cmds, false, []⟩
  | some cmd =>
    if cmd.Pid ≤ 0 then ⟨cmds, false, []⟩
    else if cmd.Mode = 'C' then
      if env.killOk then
        ⟨cmds.set index { cmd with Status := DEAD }, true,
         [OsAction.signal cmd.Pid (if force then SIGKILL else SIGTERM)]⟩
      else ⟨cmds, false, [OsAction.signal cmd.Pid (if force then SIGKILL else SIGTERM)]⟩
    else if cmd.Mode = 'D' then
      if cmd.Path = "" then ⟨cmds, false, []⟩
      else if env.helperFork < 0 then ⟨cmds, false, []⟩
      else
        ⟨cmds.set index { cmd with Status := DEAD }, true,
         [OsAction.spawnHelper ["docker", if force then "kill" else "stop", cmd.Path]]⟩
    else ⟨cmds, false, []⟩

/-- `ProcessRunner::getPid` (src/src). -/
def getPid (cmds : List command) (index : Nat) : Int :=
  match cmds[index]? with
  | none => -1
  | some cmd => cmd.Pid

end Legacy

/-! ### Structured view of a /process/list element (ServiceManager-main)

The handler builds each array element by concatenating exactly five fields;
`ListEntry` captures that element and `renderEntry` is the exact string the
handler emits for it. -/

structure ListEntry where
  id : Nat
  desc : String
  statusStr : String
  modeStr : String
  pid : Int
deriving DecidableEq, Repr

namespace SM

/-- The element the ServiceManager-main list handler builds for entry
`i` of the registry. -/
def entryOf (i : Nat) (c : command) : ListEntry :=
  ⟨i, escapeJsonString c.Desc,
   (if c.Status = RUNNING then "RUNNING" else "DEAD"),
   String.singleton c.Mode, c.Pid⟩

def entries (cmds : List command) : List ListEntry :=
  cmds.enum.map fun p => entryOf p.1 p.2

/-- Exact text of one array element as concatenated by the handler
(ServiceManager-main/src/Server/main.cpp, lines 270-277). -/
def renderEntry (e : ListEntry) : String :=
  "  \x7b\n    \"id\": " ++ toString e.id ++
  ",\n    \"desc\": \"" ++ e.desc ++
  "\",\n    \"status\": \"" ++ e.statusStr ++
  "\",\n    \"mode\": \"" ++ e.modeStr ++
  "\",\n    \"pid\": " ++ toString e.pid ++ "\n  \x7d"

/-- Body of GET /process/list (ServiceManager-main/src/Server/main.cpp,
lines 261-284): the loop emits each element, prefixing all but the first
with a comma separator. -/
def listBody (cmds : List command) : String :=
  "[\n" ++ String.intercalate ",\n" ((entries cmds).map renderEntry) ++ "\n]"

/-- The full response of GET /process/list (ServiceManager-main). -/
def listResp (cmds : List command) : HttpResp :=
  ⟨200, listBody cmds⟩

/-- Body of the status branch of POST /process/control
(ServiceManager-main/src/Server/main.cpp, lines 351-359). -/
def statusBody (id : Nat) (c : command) : String :=
  "\x7b\n  \"id\": " ++ toString id ++
  ",\n  \"desc\": \"" ++ escapeJsonString c.Desc ++
  "\",\n  \"status\": \"" ++ (if c.Status = RUNNING then "RUNNING" else "DEAD") ++
  "\",\n  \"pid\": " ++ toString c.Pid ++ "\n\x7d"

/-- POST /process/control handler (ServiceManager-main/src/Server/main.cpp,
lines 298-372): parameter presence check, stoi with 400 on exception, range
check with 404, then dispatch on `fn`; `start` short-circuits on a RUNNING
status, `kill`/`end`/`stop` call the runner's kill with `force` exactly when
`fn` is "kill", `status` renders the entry, anything else is a 400. The inner
`none` index branch is unreachable (the range check guarantees the lookup
succeeds) and stands for the handler's catch-all 500. -/
def control (cmds : List command) (req : HttpReq) (env : OsEnv) : CtrlResult :=
  match req.fnParam, req.idParam with
  | some fn, some idStr =>
    (match stoi idStr with
     | none => ⟨cmds, 400, "Invalid id parameter: must be a number", []⟩
     | some id =>
       if id < 0 ∨ (cmds.length : Int) ≤ id then
         ⟨cmds, 404, "Process ID out of range", []⟩
       else
         match cmds[id.toNat]? with
         | none => ⟨cmds, 500, "Internal server error", []⟩
         | some cmd =>
           if fn = "start" then
             if cmd.Status = RUNNING then
               ⟨cmds, 200,
                "Process is already running (PID: " ++ toString cmd.Pid ++ ")", []⟩
             else
               let r := start cmds id.toNat env
               if 0 < r.pid then
                 ⟨r.cmds, 200,
                  "Process started successfully (PID: " ++ toString r.pid ++ ")",
                  r.acts⟩
               else ⟨r.cmds, 500, "Failed to start process", r.acts⟩
           else if fn = "kill" ∨ fn = "end" ∨ fn = "stop" then
             let r := kill cmds id.toNat (fn == "kill") env
             if r.ok then ⟨r.cmds, 200, "Process terminated successfully", r.acts⟩
             else ⟨r.cmds, 500, "Failed to terminate process", r.acts⟩
           else if fn = "status" then
             ⟨cmds, 200, statusBody id.toNat cmd, []⟩
           else
             ⟨cmds, 400,
              "Unknown function: " ++ fn ++
                ". Valid functions: start, stop, kill, end, status", []⟩)
  | _, _ => ⟨cmds, 400, "Missing required parameters: fn and id", []⟩

end SM

namespace Legacy

/-- Body of GET /process/list (src/src/Server/main.cpp, lines 90-116):
each element carries only the escaped description and the status string. -/
def listBody (cmds : List command) : String :=
  "[\n" ++
    String.intercalate ",\n"
      (cmds.map fun c =>
        "  \x7b\"desc\": \"" ++ legacyEscape c.Desc ++
        "\", \"status\": \"" ++
        (if c.Status = RUNNING then "RUNNING" else "DEAD") ++ "\"\x7d") ++
  "\n]\n"

/-- The full response of GET /process/list (src/src). -/
def listResp (cmds : List command) : HttpResp :=
  ⟨200, listBody cmds⟩

/-- POST /process/control handler (src/src/Server/main.cpp, lines 118-170).
Same validation chain as the other implementation, but: the start branch is
taken only when `fn` is "start" AND the entry is not RUNNING (otherwise the
request falls through to the final 400 branch); kill/end/stop all call the
runner's kill with `force` hard-coded to true; status returns the numeric
status. The inner `none` index branch is unreachable (range-checked). -/
def control (cmds : List command) (req : HttpReq) (env : OsEnv) : CtrlResult :=
  match req.fnParam, req.idParam with
  | some fn, some idStr =>
    (match stoi idStr with
     | none => ⟨cmds, 400, "Bad id parameter", []⟩
     | some id =>
       if id < 0 ∨ (cmds.length : Int) ≤ id then ⟨cmds, 404, "Invalid id", []⟩
       else
         match cmds[id.toNat]? with
         | none => ⟨cmds, 500, "", []⟩
         | some cmd =>
           if fn = "start" ∧ ¬ cmd.Status = RUNNING then
             let r := start cmds id.toNat env
             if r.pid < 0 then ⟨r.cmds, 500, "Failed to start process", r.acts⟩
             else ⟨r.cmds, 200, "Started, pid=" ++ toString r.pid, r.acts⟩
           else if fn = "kill" ∨ fn = "end" ∨ fn = "stop" then
             let r := kill cmds id.toNat true env
             if r.ok then ⟨r.cmds, 200, "Killed", r.acts⟩
             else ⟨r.cmds, 500, "Failed to kill process", r.acts⟩
           else if fn = "status" then
             ⟨cmds, 200, toString (statusShort cmd.Status), []⟩
           else ⟨cmds, 400, "Unknown fn value", []⟩)
  | _, _ => ⟨cmds, 400, "Missing fn or id parameter", []⟩

end Legacy

/-! ### Configuration loading

The configuration stream is modelled as its list of lines. `std::getline`
pops one line; `stream >> c` for a char skips whitespace (across line
boundaries) and reads one character; `stream >> n` for an int skips
whitespace and reads an optional sign and digit run. Both loaders follow
a successful token read of the mode/count with an ignore-to-end-of-line
(except the legacy count read, which ignores a single character). -/

/-- `std::getline`: pop the next line; fails at end of stream. -/
def getlineM : List String → Option (String × List String)
  | [] => none
  | l :: ls => some (l, ls)

def lineHasContent (l : String) : Bool := l.data.any (fun c => ¬ isWs c)

/-- `stream >> c; stream.ignore(max, newline)` for a `char`: skip
whitespace-only lines, read the first non-whitespace character of the next
line, and discard the rest of that line. Fails at end of stream. -/
def readCharToken : List String → Option (Char × List String)
  | [] => none
  | l :: ls =>
    match l.data.dropWhile isWs with
    | [] => readCharToken ls
    | c :: _ => some (c, ls)

/-- `stream >> n` for an `int`, positioned at the start of a line: skip
whitespace-only lines and parse the leading integer of the next contentful
line. Fails (stream failbit) when that line does not start with an integer;
an integer overflowing `int` is treated as a failed read as well. -/
def readIntToken : List String → Option (Int × List String)
  | [] => none
  | l :: ls =>
    if lineHasContent l then
      match stoi l with
      | none => none
      | some n => some (n, ls)
    else readIntToken ls

/-- What remains of a line after `stream >> n` has consumed the leading
whitespace, optional sign and digit run of an integer. -/
def remainderAfterInt (l : String) : String :=
  let cs := l.data.dropWhile isWs
  let cs2 : List Char :=
    match cs with
    | '-' :: r => r
    | '+' :: r => r
    | r => r
  String.mk (cs2.dropWhile isDigitCh)

/-- Like `readIntToken` but also returns the unread remainder of the line
the integer was found on (the legacy loader ignores only one character after
the count, so that remainder matters there). -/
def readIntTokenRem : List String → Option (Int × String × List String)
  | [] => none
  | l :: ls =>
    if lineHasContent l then
      match stoi l with
      | none => none
      | some n => some (n, remainderAfterInt l, ls)
    else readIntTokenRem ls

namespace SM

/-- One iteration group of `loadConfiguration` (ServiceManager-main/src/
Server/main.cpp, lines 168-211), run `n` times: getline the description,
read the mode character (ignoring the rest of its line), reject a mode other
than 'C'/'D', getline the path and the folder, and reject an empty
description or path. A failed read aborts with an error. The `command`
constructor defaults give the loaded entry `Status = DEAD`, `Pid = -1`. -/
def loadEntries : Nat → List String → Option (List command)
  | 0, _ => some []
  | Nat.succ k, lines =>
    match getlineM lines with
    | none => none
    | some (desc, l1) =>
      match readCharToken l1 with
      | none => none
      | some (m, l2) =>
        if ¬ (m = 'C' ∨ m = 'D') then none
        else
          match getlineM l2 with
          | none => none
          | some (path, l3) =>
            match getlineM l3 with
            | none => none
            | some (folder, l4) =>
              if desc = "" ∨ path = "" then none
              else
                match loadEntries k l4 with
                | none => none
                | some rest => some (⟨desc, path, m, folder, DEAD, -1⟩ :: rest)

/-- `loadConfiguration` (ServiceManager-main/src/Server/main.cpp, lines
150-214): read the command count (error when the read fails or the count is
negative), then the `n` entry groups. -/
def loadConfiguration (lines : List String) : Option (List command) :=
  match readIntToken lines with
  | none => none
  | some (n, rest) => if n < 0 then none else loadEntries n.toNat rest

/-- `main` up to serving (ServiceManager-main): load the configuration,
aborting on any error, then hand the table to the `ProcessRunner`
constructor. `some` is the registry the HTTP server serves; `none` means
the process exits before the server starts. -/
def startup (lines : List String) : Option (List command) :=
  (loadConfiguration lines).map init

/-- Registry states reachable from `s0` through POST /process/control
requests (the only HTTP path that mutates the registry in
ServiceManager-main). -/
inductive ReachableFrom (s0 : List command) : List command → Prop
  | refl : ReachableFrom s0 s0
  | step (s : List command) (req : HttpReq) (env : OsEnv) :
      ReachableFrom s0 s → ReachableFrom s0 (control s req env).cmds

end SM

namespace Legacy

/-- One iteration of the `ReadCmds` loop (src/src/Server/main.cpp, lines
71-80), run `n` times, with no validation whatsoever. A getline past the end
of the stream leaves the string empty; a failed mode read leaves `Mode` at
its previous (uninitialized) value, modelled by `junkMode`. `Pid` has no
initializer in the legacy `command` struct and the legacy runner constructor
does not set it either, so the indeterminate initial value is modelled by
`junkPid`. -/
def readEntries (junkMode : Char) (junkPid : Int) :
    Nat → List String → List command
  | 0, _ => []
  | Nat.succ k, lines =>
    let p1 : String × List String :=
      match getlineM lines with
      | none => ("", [])
      | some x => x
    let p2 : Char × List String :=
      match readCharToken p1.2 with
      | none => (junkMode, [])
      | some x => x
    let p3 : String × List String :=
      match getlineM p2.2 with
      | none => ("", [])
      | some x => x
    let p4 : String × List String :=
      match getlineM p3.2 with
      | none => ("", [])
      | some x => x
    ⟨p1.1, p3.1, p2.1, p4.1, DEAD, junkPid⟩ :: readEntries junkMode junkPid k p4.2

/-- `ReadCmds` (src/src/Server/main.cpp, lines 65-83): `file >> N` (a failed
read leaves the global `N` at 0, so the loop runs zero times and the server
happily serves an empty registry), `file.ignore()` discarding one character
(the newline when the count line carries nothing else), then `N` unvalidated
entry groups. A negative count also just skips the loop. This function is
total: legacy startup never aborts on content (`Init` only checks that the
file exists), so whatever it produces is served. -/
def readCmds (junkMode : Char) (junkPid : Int) (lines : List String) :
    List command :=
  match readIntTokenRem lines with
  | none => []
  | some (n, rem, rest) =>
    if n < 0 then []
    else
      readEntries junkMode junkPid n.toNat
        (if rem = "" then rest else String.mk (rem.data.drop 1) :: rest)

end Legacy

/-- A registry entry as the documented implementation maintains it: the mode
character is one of the two configured modes, and a DEAD entry carries the
sentinel pid -1. -/
def GoodEntry (c : command) : Prop :=
  (c.Mode = 'C' ∨ c.Mode = 'D') ∧ (c.Status = DEAD → c.Pid = -1)

/-- All entries of the registry are `GoodEntry`. -/
def GoodState (cmds : List command) : Prop :=
  ∀ c ∈ cmds, GoodEntry c

/-- Whether `pat` is a leading subsequence of `cs`. -/
def startsWithChars : List Char → List Char → Bool
  | [], _ => true
  | _ :: _, [] => false
  | p :: ps, c :: cs => if p = c then startsWithChars ps cs else false

/-- Whether `pat` occurs contiguously anywhere in the character list. -/
def containsChars (pat : List Char) : List Char → Bool
  | [] => startsWithChars pat []
  | c :: cs => if startsWithChars pat (c :: cs) then true else containsChars pat cs

/-- Whether `pat` occurs as a substring of `s` (used to express that a JSON
field name does or does not appear in a response body). -/
def strContains (s pat : String) : Bool :=
  containsChars pat.data s.data

/-! ## Lemmas and theorems -/

theorem goodState_set {cmds : List command} {idx : Nat} {b : command}
    (h : GoodState cmds) (hb : GoodEntry b) : GoodState (cmds.set idx b) := by
  intro c hc
  rcases List.mem_or_eq_of_mem_set hc with hmem | rfl
  · exact h c hmem
  · exact hb

theorem SM.start_good {cmds : List command} (idx : Nat) (env : OsEnv)
    (h : GoodState cmds) : GoodState (SM.start cmds idx env).cmds := by
  unfold SM.start
  cases hg : cmds[idx]? with
  | none => exact h
  | some cmd =>
    have hcmd : GoodEntry cmd := h cmd (List.getElem?_mem hg)
    dsimp only
    split
    · exact h
    · split
      · exact h
      · split
        · exact h
        · exact goodState_set h ⟨hcmd.1, fun hd => nomatch hd⟩

theorem SM.kill_good {cmds : List command} (idx : Nat) (force : Bool)
    (env : OsEnv) (h : GoodState cmds) : GoodState (SM.kill cmds idx force env).cmds := by
  unfold SM.kill
  cases hg : cmds[idx]? with
  | none => exact h
  | some cmd =>
    have hcmd : GoodEntry cmd := h cmd (List.getElem?_mem hg)
    dsimp only
    split
    · exact h
    · split
      · split
        · exact goodState_set h ⟨hcmd.1, fun _ => rfl⟩
        · exact h
      · split
        · split
          · exact h
          · split
            · exact goodState_set h ⟨hcmd.1, fun _ => rfl⟩
            · exact h
        · exact h

theorem SM.control_good (cmds : List command) (req : HttpReq) (env : OsEnv)
    (h : GoodState cmds) : GoodState (SM.control cmds req env).cmds := by
  rcases req with ⟨fnp, idp⟩
  cases fnp with
  | none => exact h
  | some fn =>
    cases idp with
    | none => exact h
    | some idStr =>
      simp only [SM.control]
      cases stoi idStr with
      | none => exact h
      | some id =>
        dsimp only
        split
        · exact h
        · cases cmds[id.toNat]? with
          | none => exact h
          | some cmd =>
            dsimp only
            split
            · split
              · exact h
              · split
                · exact SM.start_good id.toNat env h
                · exact SM.start_good id.toNat env h
            · split
              · split
                · exact SM.kill_good id.toNat (fn == "kill") env h
                · exact SM.kill_good id.toNat (fn == "kill") env h
              · split
                · exact h
                · exact h

theorem SM.reachable_good {s0 cmds : List command} (h0 : GoodState s0)
    (hr : SM.ReachableFrom s0 cmds) : GoodState cmds := by
  induction hr with
  | refl => exact h0
  | step s req env _ ih => exact SM.control_good s req env ih

theorem SM.loadEntries_good :
    ∀ (k : Nat) (lines : List String) (cfg : List command),
      SM.loadEntries k lines = some cfg →
      ∀ c ∈ cfg, (c.Mode = 'C' ∨ c.Mode = 'D') ∧ ¬ c.Desc = "" ∧ ¬ c.Path = "" ∧
        c.Status = DEAD ∧ c.Pid = -1 := by
  intro k
  induction k with
  | zero =>
    intro lines cfg h c hc
    simp only [SM.loadEntries] at h
    cases h
    cases hc
  | succ k ih =>
    intro lines cfg h c hc
    simp only [SM.loadEntries] at h
    cases hgl : getlineM lines with
    | none => rw [hgl] at h; cases h
    | some p1 =>
      obtain ⟨desc, l1⟩ := p1
      rw [hgl] at h
      dsimp only at h
      cases hct : readCharToken l1 with
      | none => rw [hct] at h; cases h
      | some p2 =>
        obtain ⟨m, l2⟩ := p2
        rw [hct] at h
        dsimp only at h
        split at h
        · cases h
        · rename_i hmode
          cases hg2 : getlineM l2 with
          | none => rw [hg2] at h; cases h
          | some p3 =>
            obtain ⟨path, l3⟩ := p3
            rw [hg2] at h
            dsimp only at h
            cases hg3 : getlineM l3 with
            | none => rw [hg3] at h; cases h
            | some p4 =>
              obtain ⟨folder, l4⟩ := p4
              rw [hg3] at h
              dsimp only at h
              split at h
              · cases h
              · rename_i hne
                cases hrest : SM.loadEntries k l4 with
                | none => rw [hrest] at h; cases h
                | some rest =>
                  rw [hrest] at h
                  injection h with h
                  subst h
                  rcases List.mem_cons.mp hc with hc1 | hc1
                  · subst hc1
                    refine ⟨not_not.mp hmode, ?_, ?_, rfl, rfl⟩
                    · exact fun hd => hne (Or.inl hd)
                    · exact fun hp => hne (Or.inr hp)
                  · exact ih l4 rest hrest c hc1

theorem SM.loadConfiguration_good {lines : List String} {cfg : List command}
    (h : SM.loadConfiguration lines = some cfg) :
    ∀ c ∈ cfg, (c.Mode = 'C' ∨ c.Mode = 'D') ∧ ¬ c.Desc = "" ∧ ¬ c.Path = "" ∧
      c.Status = DEAD ∧ c.Pid = -1 := by
  unfold SM.loadConfiguration at h
  cases hi : readIntToken lines with
  | none => rw [hi] at h; cases h
  | some p =>
    obtain ⟨n, rest⟩ := p
    rw [hi] at h
    dsimp only at h
    split at h
    · cases h
    · exact SM.loadEntries_good n.toNat rest cfg h

theorem SM.init_good {cfg : List command}
    (hmode : ∀ c ∈ cfg, c.Mode = 'C' ∨ c.Mode = 'D') :
    GoodState (SM.init cfg) := by
  intro c hc
  rcases List.mem_map.mp hc with ⟨a, ha, rfl⟩
  exact ⟨hmode a ha, fun _ => rfl⟩

theorem SM.entries_getElem? (cmds : List command) (i : Nat) :
    (SM.entries cmds)[i]? = (cmds[i]?).map (fun c => SM.entryOf i c) := by
  unfold SM.entries
  rw [List.getElem?_map, List.getElem?_enum]
  cases cmds[i]? <;> rfl

theorem SM.entries_length (cmds : List command) :
    (SM.entries cmds).length = cmds.length := by
  unfold SM.entries
  rw [List.length_map, List.enum_length]

/-- Claim C10: for every index at or beyond the number of configured
workloads, the supervisor operations of both implementations are total
no-ops at that boundary: `start` returns -1, `kill` returns false and
`getPid` returns -1, each leaving the registry unchanged and performing no
OS-level operation. -/
theorem c10_out_of_bounds_total (cmds : List command) (idx : Nat)
    (env : OsEnv) (force : Bool) (h : cmds.length ≤ idx) :
    SM.start cmds idx env = ⟨cmds, -1, []⟩ ∧
    SM.kill cmds idx force env = ⟨cmds, false, []⟩ ∧
    SM.getPid cmds idx = -1 ∧
    Legacy.start cmds idx env = ⟨cmds, -1, []⟩ ∧
    Legacy.kill cmds idx force env = ⟨cmds, false, []⟩ ∧
    Legacy.getPid cmds idx = -1 := by
  have hn : cmds[idx]? = none := List.getElem?_eq_none h
  refine ⟨?_, ?_, ?_, ?_, ?_, ?_⟩ <;>
    simp [SM.start, SM.kill, SM.getPid, Legacy.start, Legacy.kill,
      Legacy.getPid, hn]

/-- Witness for C10 at a concrete out-of-range index. -/
theorem c10_witness :
    SM.start [] 3 ⟨7, true, 9, true, 0⟩ = ⟨[], -1, []⟩ ∧
    SM.kill [] 3 true ⟨7, true, 9, true, 0⟩ = ⟨[], false, []⟩ ∧
    SM.getPid [] 3 = -1 ∧
    Legacy.start [] 3 ⟨7, true, 9, true, 0⟩ = ⟨[], -1, []⟩ ∧
    Legacy.kill [] 3 true ⟨7, true, 9, true, 0⟩ = ⟨[], false, []⟩ ∧
    Legacy.getPid [] 3 = -1 :=
  c10_out_of_bounds_total [] 3 ⟨7, true, 9, true, 0⟩ true (by decide)

/-- Claim C5: on fork failure, `start` of either implementation returns -1
and leaves the registry (hence the workload's Dead status and absent pid)
untouched, and the control endpoint of either implementation surfaces that
as an HTTP 500 with no state change and no OS-level action. -/
theorem c5_spawn_failure (cmds : List command) (idx : Nat) (cmd : command)
    (idStr : String) (id : Int) (env : OsEnv)
    (hget : cmds[idx]? = some cmd) (hdead : cmd.Status = DEAD)
    (hpath : ¬ cmd.Path = "") (hfork : env.forkPid < 0)
    (hstoi : stoi idStr = some id) (h0 : 0 ≤ id)
    (hlt : id < (cmds.length : Int)) (hidx : id.toNat = idx) :
    SM.start cmds idx env = ⟨cmds, -1, []⟩ ∧
    Legacy.start cmds idx env = ⟨cmds, -1, []⟩ ∧
    SM.control cmds ⟨some "start", some idStr⟩ env =
      ⟨cmds, 500, "Failed to start process", []⟩ ∧
    Legacy.control cmds ⟨some "start", some idStr⟩ env =
      ⟨cmds, 500, "Failed to start process", []⟩ := by
  have hnrun : ¬ cmd.Status = RUNNING := by rw [hdead]; exact fun hx => nomatch hx
  have hnotrun : ¬ (cmd.Status = RUNNING ∧ 0 < cmd.Pid) := fun hx => hnrun hx.1
  have hrange : ¬ (id < 0 ∨ (cmds.length : Int) ≤ id) := by omega
  have hs : SM.start cmds idx env = ⟨cmds, -1, []⟩ := by
    unfold SM.start
    rw [hget]
    dsimp only
    rw [if_neg hnotrun, if_neg hpath, if_pos hfork]
  have hl : Legacy.start cmds idx env = ⟨cmds, -1, []⟩ := by
    unfold Legacy.start
    rw [hget]
    dsimp only
    rw [if_neg hpath, if_pos hfork]
  refine ⟨hs, hl, ?_, ?_⟩
  · unfold SM.control
    dsimp only
    rw [hstoi]
    dsimp only
    rw [if_neg hrange, hidx, hget]
    dsimp only
    rw [if_pos rfl, if_neg hnrun, hs]
    rfl
  · unfold Legacy.control
    dsimp only
    rw [hstoi]
    dsimp only
    rw [if_neg hrange, hidx, hget]
    dsimp only
    rw [if_pos ⟨rfl, hnrun⟩, hl]
    rfl

/-- Witness for C5 at a concrete Dead workload with a failing fork. -/
theorem c5_witness :
    SM.start [⟨"w", "sleep 5", 'C', ".", DEAD, -1⟩] 0 ⟨-1, true, 9, true, 0⟩ =
      ⟨[⟨"w", "sleep 5", 'C', ".", DEAD, -1⟩], -1, []⟩ ∧
    Legacy.start [⟨"w", "sleep 5", 'C', ".", DEAD, -1⟩] 0 ⟨-1, true, 9, true, 0⟩ =
      ⟨[⟨"w", "sleep 5", 'C', ".", DEAD, -1⟩], -1, []⟩ ∧
    SM.control [⟨"w", "sleep 5", 'C', ".", DEAD, -1⟩]
        ⟨some "start", some "0"⟩ ⟨-1, true, 9, true, 0⟩ =
      ⟨[⟨"w", "sleep 5", 'C', ".", DEAD, -1⟩], 500, "Failed to start process", []⟩ ∧
    Legacy.control [⟨"w", "sleep 5", 'C', ".", DEAD, -1⟩]
        ⟨some "start", some "0"⟩ ⟨-1, true, 9, true, 0⟩ =
      ⟨[⟨"w", "sleep 5", 'C', ".", DEAD, -1⟩], 500, "Failed to start process", []⟩ :=
  c5_spawn_failure [⟨"w", "sleep 5", 'C', ".", DEAD, -1⟩] 0
    ⟨"w", "sleep 5", 'C', ".", DEAD, -1⟩ "0" 0 ⟨-1, true, 9, true, 0⟩
    (by decide) (by decide) (by decide) (by decide) (by decide) (by decide)
    (by decide) (by decide)

/-- Claim C9: the status function of the control endpoint is a pure read in
both implementations: the registry is returned unchanged, no OS-level action
is performed, and the 200 body is computed only from the recorded entry
(the documented implementation renders the recorded status and pid, the
older one the numeric status value). -/
theorem c9_status_pure_read (cmds : List command) (cmd : command)
    (idStr : String) (id : Int) (env : OsEnv)
    (hstoi : stoi idStr = some id) (h0 : 0 ≤ id)
    (hlt : id < (cmds.length : Int)) (hget : cmds[id.toNat]? = some cmd) :
    SM.control cmds ⟨some "status", some idStr⟩ env =
      ⟨cmds, 200, SM.statusBody id.toNat cmd, []⟩ ∧
    Legacy.control cmds ⟨some "status", some idStr⟩ env =
      ⟨cmds, 200, toString (statusShort cmd.Status), []⟩ := by
  have hrange : ¬ (id < 0 ∨ (cmds.length : Int) ≤ id) := by omega
  constructor
  · unfold SM.control
    dsimp only
    rw [hstoi]
    dsimp only
    rw [if_neg hrange, hget]
    dsimp only
    rw [if_neg (by decide : ¬ ("status" : String) = "start"),
      if_neg (by decide :
        ¬ (("status" : String) = "kill" ∨ ("status" : String) = "end" ∨
          ("status" : String) = "stop")),
      if_pos rfl]
  · unfold Legacy.control
    dsimp only
    rw [hstoi]
    dsimp only
    rw [if_neg hrange, hget]
    dsimp only
    rw [if_neg (fun hx => by exact absurd hx.1 (by decide)),
      if_neg (by decide :
        ¬ (("status" : String) = "kill" ∨ ("status" : String) = "end" ∨
          ("status" : String) = "stop")),
      if_pos rfl]

/-- Witness for C9 at a concrete running workload. -/
theorem c9_witness :
    SM.control [⟨"w", "sleep 5", 'C', ".", RUNNING, 42⟩]
        ⟨some "status", some "0"⟩ ⟨7, true, 9, true, 0⟩ =
      ⟨[⟨"w", "sleep 5", 'C', ".", RUNNING, 42⟩], 200,
        SM.statusBody 0 ⟨"w", "sleep 5", 'C', ".", RUNNING, 42⟩, []⟩ ∧
    Legacy.control [⟨"w", "sleep 5", 'C', ".", RUNNING, 42⟩]
        ⟨some "status", some "0"⟩ ⟨7, true, 9, true, 0⟩ =
      ⟨[⟨"w", "sleep 5", 'C', ".", RUNNING, 42⟩], 200,
        toString (statusShort RUNNING), []⟩ :=
  c9_status_pure_read [⟨"w", "sleep 5", 'C', ".", RUNNING, 42⟩]
    ⟨"w", "sleep 5", 'C', ".", RUNNING, 42⟩ "0" 0 ⟨7, true, 9, true, 0⟩
    (by decide) (by decide) (by decide) (by decide)

/-- Claim C7: POST /process/control validation, in both implementations.
A missing fn or id parameter, an id on which stoi throws, or an
unrecognized fn (the code recognizes start, kill, end, stop and status)
each yield a 400; a parsed id outside [0, workload count) yields a 404.
In every such case the registry is unchanged and no OS-level operation is
performed, so no supervisor operation runs. -/
theorem c7_control_validation (cmds : List command) (env : OsEnv) :
    (∀ req : HttpReq, req.fnParam = none ∨ req.idParam = none →
      SM.control cmds req env =
        ⟨cmds, 400, "Missing required parameters: fn and id", []⟩ ∧
      Legacy.control cmds req env =
        ⟨cmds, 400, "Missing fn or id parameter", []⟩) ∧
    (∀ fn idStr, stoi idStr = none →
      SM.control cmds ⟨some fn, some idStr⟩ env =
        ⟨cmds, 400, "Invalid id parameter: must be a number", []⟩ ∧
      Legacy.control cmds ⟨some fn, some idStr⟩ env =
        ⟨cmds, 400, "Bad id parameter", []⟩) ∧
    (∀ fn idStr id, stoi idStr = some id →
      (id < 0 ∨ (cmds.length : Int) ≤ id) →
      SM.control cmds ⟨some fn, some idStr⟩ env =
        ⟨cmds, 404, "Process ID out of range", []⟩ ∧
      Legacy.control cmds ⟨some fn, some idStr⟩ env =
        ⟨cmds, 404, "Invalid id", []⟩) ∧
    (∀ fn idStr id, stoi idStr = some id → 0 ≤ id →
      id < (cmds.length : Int) →
      ¬ fn = "start" → ¬ fn = "kill" → ¬ fn = "end" → ¬ fn = "stop" →
      ¬ fn = "status" →
      SM.control cmds ⟨some fn, some idStr⟩ env =
        ⟨cmds, 400,
         "Unknown function: " ++ fn ++
           ". Valid functions: start, stop, kill, end, status", []⟩ ∧
      Legacy.control cmds ⟨some fn, some idStr⟩ env =
        ⟨cmds, 400, "Unknown fn value", []⟩) := by
  refine ⟨?_, ?_, ?_, ?_⟩
  · rintro ⟨fnp, idp⟩ (h | h)
    · subst h
      cases idp <;> exact ⟨rfl, rfl⟩
    · subst h
      cases fnp <;> exact ⟨rfl, rfl⟩
  · intro fn idStr hstoi
    constructor
    · unfold SM.control
      dsimp only
      rw [hstoi]
    · unfold Legacy.control
      dsimp only
      rw [hstoi]
  · intro fn idStr id hstoi hrange
    constructor
    · unfold SM.control
      dsimp only
      rw [hstoi]
      dsimp only
      rw [if_pos hrange]
    · unfold Legacy.control
      dsimp only
      rw [hstoi]
      dsimp only
      rw [if_pos hrange]
  · intro fn idStr id hstoi h0 hlt hf1 hf2 hf3 hf4 hf5
    have hrange : ¬ (id < 0 ∨ (cmds.length : Int) ≤ id) := by omega
    have hx : id.toNat < cmds.length := by omega
    obtain ⟨cmd0, hget⟩ : ∃ c, cmds[id.toNat]? = some c :=
      ⟨_, List.getElem?_eq_getElem hx⟩
    constructor
    · unfold SM.control
      dsimp only
      rw [hstoi]
      dsimp only
      rw [if_neg hrange, hget]
      dsimp only
      rw [if_neg hf1, if_neg ?neg1, if_neg hf5]
      case neg1 => rintro (h | h | h) <;> [exact hf2 h; exact hf3 h; exact hf4 h]
    · unfold Legacy.control
      dsimp only
      rw [hstoi]
      dsimp only
      rw [if_neg hrange, hget]
      dsimp only
      rw [if_neg (fun hx1 => hf1 hx1.1), if_neg ?neg2, if_neg hf5]
      case neg2 => rintro (h | h | h) <;> [exact hf2 h; exact hf3 h; exact hf4 h]

/-- Witness for C7: a missing fn parameter and an unparseable id at concrete
requests. -/
theorem c7_witness :
    (SM.control [] ⟨none, some "0"⟩ ⟨7, true, 9, true, 0⟩ =
      ⟨[], 400, "Missing required parameters: fn and id", []⟩ ∧
     Legacy.control [] ⟨none, some "0"⟩ ⟨7, true, 9, true, 0⟩ =
      ⟨[], 400, "Missing fn or id parameter", []⟩) ∧
    (SM.control [] ⟨some "start", some "abc"⟩ ⟨7, true, 9, true, 0⟩ =
      ⟨[], 400, "Invalid id parameter: must be a number", []⟩ ∧
     Legacy.control [] ⟨some "start", some "abc"⟩ ⟨7, true, 9, true, 0⟩ =
      ⟨[], 400, "Bad id parameter", []⟩) :=
  ⟨(c7_control_validation [] ⟨7, true, 9, true, 0⟩).1 ⟨none, some "0"⟩
      (Or.inl rfl),
   (c7_control_validation [] ⟨7, true, 9, true, 0⟩).2.1 "start" "abc"
      (by decide)⟩

/-- Claim C1 (amended): in the ServiceManager-main implementation, `start`
on a workload already RUNNING with a recorded positive pid returns that pid
without any OS-level action or registry change, and the control endpoint
answers fn=start on such a workload with a 200 no-op naming the recorded
pid. (The src/src implementation violates the original claim; see the
counterexample.) -/
theorem c1_amended_idempotent_start (cmds : List command) (cmd : command)
    (idStr : String) (id : Int) (env : OsEnv)
    (hstoi : stoi idStr = some id) (h0 : 0 ≤ id)
    (hlt : id < (cmds.length : Int)) (hget : cmds[id.toNat]? = some cmd)
    (hrun : cmd.Status = RUNNING) (hpid : 0 < cmd.Pid) :
    SM.start cmds id.toNat env = ⟨cmds, cmd.Pid, []⟩ ∧
    SM.control cmds ⟨some "start", some idStr⟩ env =
      ⟨cmds, 200, "Process is already running (PID: " ++ toString cmd.Pid ++ ")",
       []⟩ := by
  have hrange : ¬ (id < 0 ∨ (cmds.length : Int) ≤ id) := by omega
  constructor
  · unfold SM.start
    rw [hget]
    dsimp only
    rw [if_pos ⟨hrun, hpid⟩]
  · unfold SM.control
    dsimp only
    rw [hstoi]
    dsimp only
    rw [if_neg hrange, hget]
    dsimp only
    rw [if_pos rfl, if_pos hrun]

/-- Witness for C1 (amended) at a concrete running workload. -/
theorem c1_witness :
    SM.start [⟨"w", "sleep 5", 'C', ".", RUNNING, 42⟩] 0 ⟨7, true, 9, true, 0⟩ =
      ⟨[⟨"w", "sleep 5", 'C', ".", RUNNING, 42⟩], 42, []⟩ ∧
    SM.control [⟨"w", "sleep 5", 'C', ".", RUNNING, 42⟩]
        ⟨some "start", some "0"⟩ ⟨7, true, 9, true, 0⟩ =
      ⟨[⟨"w", "sleep 5", 'C', ".", RUNNING, 42⟩], 200,
       "Process is already running (PID: " ++ toString (42 : Int) ++ ")", []⟩ :=
  c1_amended_idempotent_start [⟨"w", "sleep 5", 'C', ".", RUNNING, 42⟩]
    ⟨"w", "sleep 5", 'C', ".", RUNNING, 42⟩ "0" 0 ⟨7, true, 9, true, 0⟩
    (by decide) (by decide) (by decide) (by decide) (by decide) (by decide)

/-- Counterexample to C1 as stated, on the src/src implementation: with
workload 0 RUNNING at recorded pid 42, fn=start is answered 400 "Unknown fn
value" instead of a successful no-op, and a direct second `start` forks a
second process and returns the new pid 7 rather than the recorded 42. -/
theorem c1_counterexample :
    Legacy.control [⟨"w", "sleep 5", 'C', ".", RUNNING, 42⟩]
        ⟨some "start", some "0"⟩ ⟨7, true, 9, true, 0⟩ =
      ⟨[⟨"w", "sleep 5", 'C', ".", RUNNING, 42⟩], 400, "Unknown fn value", []⟩ ∧
    Legacy.start [⟨"w", "sleep 5", 'C', ".", RUNNING, 42⟩] 0 ⟨7, true, 9, true, 0⟩ =
      ⟨[⟨"w", "sleep 5", 'C', ".", RUNNING, 7⟩], 7,
       [OsAction.forkChild ["sleep", "5"]]⟩ := by
  constructor <;> decide

/-- Claim C2 (amended): in the ServiceManager-main implementation, `kill` on
a RUNNING Container-mode ('D') workload forks the docker stop/kill helper
and waits for it, succeeds exactly when the helper exited with code 0, and
only on success marks the workload DEAD with pid -1 (otherwise the registry
is unchanged). (The src/src implementation violates the original claim; see
the counterexample.) -/
theorem c2_amended_container_stop (cmds : List command) (idx : Nat)
    (cmd : command) (force : Bool) (env : OsEnv)
    (hget : cmds[idx]? = some cmd) (hmode : cmd.Mode = 'D')
    (hrun : cmd.Status = RUNNING) (hpid : 0 < cmd.Pid)
    (hfork : ¬ env.helperFork < 0) :
    (SM.kill cmds idx force env).acts =
      [OsAction.spawnHelper ["docker", if force then "kill" else "stop", cmd.Path],
       OsAction.waitHelper env.helperFork] ∧
    ((SM.kill cmds idx force env).ok = true ↔
      env.helperExited = true ∧ env.helperCode = 0) ∧
    ((SM.kill cmds idx force env).ok = true →
      (SM.kill cmds idx force env).cmds =
        cmds.set idx { cmd with Status := DEAD, Pid := -1 }) ∧
    ((SM.kill cmds idx force env).ok = false →
      (SM.kill cmds idx force env).cmds = cmds) := by
  have hk : SM.kill cmds idx force env =
      if env.helperExited = true ∧ env.helperCode = 0 then
        ⟨cmds.set idx { cmd with Status := DEAD, Pid := -1 }, true,
         [OsAction.spawnHelper ["docker", if force then "kill" else "stop", cmd.Path],
          OsAction.waitHelper env.helperFork]⟩
      else
        ⟨cmds, false,
         [OsAction.spawnHelper ["docker", if force then "kill" else "stop", cmd.Path],
          OsAction.waitHelper env.helperFork]⟩ := by
    unfold SM.kill
    rw [hget]
    dsimp only
    rw [if_neg (not_not.mpr ⟨hrun, hpid⟩), hmode,
      if_neg (by decide : ¬ ('D' : Char) = 'C'), if_pos rfl, if_neg hfork]
  by_cases hx : env.helperExited = true ∧ env.helperCode = 0
  · rw [hk, if_pos hx]
    refine ⟨rfl, by simpa using hx, fun _ => rfl, fun hfalse => ?_⟩
    simp at hfalse
  · rw [hk, if_neg hx]
    refine ⟨rfl, by simpa using hx, fun htrue => ?_, fun _ => rfl⟩
    simp at htrue

/-- Witness for C2 (amended) at a concrete running container workload whose
helper exits 0. -/
theorem c2_witness :
    (SM.kill [⟨"db", "pg", 'D', ".", RUNNING, 42⟩] 0 false ⟨7, true, 9, true, 0⟩).acts =
      [OsAction.spawnHelper ["docker", "stop", "pg"], OsAction.waitHelper 9] ∧
    ((SM.kill [⟨"db", "pg", 'D', ".", RUNNING, 42⟩] 0 false ⟨7, true, 9, true, 0⟩).ok = true ↔
      true = true ∧ (0 : Nat) = 0) := by
  have h := c2_amended_container_stop [⟨"db", "pg", 'D', ".", RUNNING, 42⟩] 0
    ⟨"db", "pg", 'D', ".", RUNNING, 42⟩ false ⟨7, true, 9, true, 0⟩
    (by decide) (by decide) (by decide) (by decide) (by decide)
  exact ⟨h.1, h.2.1⟩

/-- Counterexample to C2 as stated, on the src/src implementation: with
workload 0 a RUNNING Container-mode entry and the helper exit code 1 (the
env's last component), `kill` still returns true and marks the entry DEAD
(keeping the stale pid), and its OS trace contains no wait on the helper:
the call neither blocks on the helper nor ties success to its exit code. -/
theorem c2_counterexample :
    Legacy.kill [⟨"db", "pg", 'D', ".", RUNNING, 42⟩] 0 false ⟨7, true, 9, true, 1⟩ =
      ⟨[⟨"db", "pg", 'D', ".", DEAD, 42⟩], true,
       [OsAction.spawnHelper ["docker", "stop", "pg"]]⟩ ∧
    ¬ OsAction.waitHelper 9 ∈
        (Legacy.kill [⟨"db", "pg", 'D', ".", RUNNING, 42⟩] 0 false
          ⟨7, true, 9, true, 1⟩).acts := by
  constructor <;> decide

/-- Claim C3 (amended): in the ServiceManager-main implementation, fn=stop
and fn=kill both dispatch to the runner's kill with force exactly when fn is
"kill", and for a RUNNING Native-mode ('C') workload the delivered signal is
SIGTERM (15) for stop and SIGKILL (9) for kill. (The src/src implementation
violates the original claim by hard-coding force=true; see the
counterexample.) -/
theorem c3_amended_dispatch (cmds : List command) (idStr : String) (id : Int)
    (fn : String) (env : OsEnv)
    (hstoi : stoi idStr = some id) (h0 : 0 ≤ id)
    (hlt : id < (cmds.length : Int)) (hfn : fn = "stop" ∨ fn = "kill") :
    SM.control cmds ⟨some fn, some idStr⟩ env =
      (if (SM.kill cmds id.toNat (fn == "kill") env).ok then
        ⟨(SM.kill cmds id.toNat (fn == "kill") env).cmds, 200,
         "Process terminated successfully",
         (SM.kill cmds id.toNat (fn == "kill") env).acts⟩
      else
        ⟨(SM.kill cmds id.toNat (fn == "kill") env).cmds, 500,
         "Failed to terminate process",
         (SM.kill cmds id.toNat (fn == "kill") env).acts⟩) ∧
    (∀ cmd, cmds[id.toNat]? = some cmd → cmd.Mode = 'C' →
      cmd.Status = RUNNING → 0 < cmd.Pid →
      (SM.kill cmds id.toNat (fn == "kill") env).acts =
        [OsAction.signal cmd.Pid (if fn = "kill" then SIGKILL else SIGTERM)]) := by
  have hrange : ¬ (id < 0 ∨ (cmds.length : Int) ≤ id) := by omega
  have hx : id.toNat < cmds.length := by omega
  obtain ⟨cmd0, hget0⟩ : ∃ c, cmds[id.toNat]? = some c :=
    ⟨_, List.getElem?_eq_getElem hx⟩
  have hacts : ∀ cmd, cmds[id.toNat]? = some cmd → cmd.Mode = 'C' →
      cmd.Status = RUNNING → 0 < cmd.Pid →
      ∀ force : Bool, (SM.kill cmds id.toNat force env).acts =
        [OsAction.signal cmd.Pid (if force then SIGKILL else SIGTERM)] := by
    intro cmd hget hmode hrun hpid force
    unfold SM.kill
    rw [hget]
    dsimp only
    rw [if_neg (not_not.mpr ⟨hrun, hpid⟩), hmode, if_pos rfl]
    by_cases hko : env.killOk = true
    · rw [if_pos hko]
    · rw [if_neg hko]
  rcases hfn with rfl | rfl
  · constructor
    · unfold SM.control
      dsimp only
      rw [hstoi]
      dsimp only
      rw [if_neg hrange, hget0]
      dsimp only
      rw [if_neg (by decide : ¬ ("stop" : String) = "start"),
        if_pos (Or.inr (Or.inr rfl))]
    · intro cmd hget hmode hrun hpid
      rw [hacts cmd hget hmode hrun hpid ("stop" == "kill")]
      rfl
  · constructor
    · unfold SM.control
      dsimp only
      rw [hstoi]
      dsimp only
      rw [if_neg hrange, hget0]
      dsimp only
      rw [if_neg (by decide : ¬ ("kill" : String) = "start"),
        if_pos (Or.inl rfl)]
    · intro cmd hget hmode hrun hpid
      rw [hacts cmd hget hmode hrun hpid ("kill" == "kill")]
      rfl

/-- Witness for C3 (amended): fn=stop on a concrete running Native workload
delivers SIGTERM. -/
theorem c3_witness :
    SM.control [⟨"w", "sleep 5", 'C', ".", RUNNING, 42⟩]
        ⟨some "stop", some "0"⟩ ⟨7, true, 9, true, 0⟩ =
      (if (SM.kill [⟨"w", "sleep 5", 'C', ".", RUNNING, 42⟩] 0
            (("stop" : String) == "kill") ⟨7, true, 9, true, 0⟩).ok then
        ⟨(SM.kill [⟨"w", "sleep 5", 'C', ".", RUNNING, 42⟩] 0
            (("stop" : String) == "kill") ⟨7, true, 9, true, 0⟩).cmds, 200,
         "Process terminated successfully",
         (SM.kill [⟨"w", "sleep 5", 'C', ".", RUNNING, 42⟩] 0
            (("stop" : String) == "kill") ⟨7, true, 9, true, 0⟩).acts⟩
      else
        ⟨(SM.kill [⟨"w", "sleep 5", 'C', ".", RUNNING, 42⟩] 0
            (("stop" : String) == "kill") ⟨7, true, 9, true, 0⟩).cmds, 500,
         "Failed to terminate process",
         (SM.kill [⟨"w", "sleep 5", 'C', ".", RUNNING, 42⟩] 0
            (("stop" : String) == "kill") ⟨7, true, 9, true, 0⟩).acts⟩) ∧
    (SM.kill [⟨"w", "sleep 5", 'C', ".", RUNNING, 42⟩] 0
        (("stop" : String) == "kill") ⟨7, true, 9, true, 0⟩).acts =
      [OsAction.signal 42 (if ("stop" : String) = "kill" then SIGKILL else SIGTERM)] := by
  have h := c3_amended_dispatch [⟨"w", "sleep 5", 'C', ".", RUNNING, 42⟩]
    "0" 0 "stop" ⟨7, true, 9, true, 0⟩ (by decide) (by decide) (by decide)
    (Or.inl rfl)
  exact ⟨h.1, h.2 ⟨"w", "sleep 5", 'C', ".", RUNNING, 42⟩ (by decide)
    (by decide) (by decide) (by decide)⟩

/-- Counterexample to C3 as stated, on the src/src implementation: fn=stop
on a RUNNING Native-mode workload delivers signal 9 (SIGKILL, the
non-interceptable kill) instead of the graceful SIGTERM, because the handler
hard-codes force=true for stop, kill and end alike. -/
theorem c3_counterexample :
    (Legacy.control [⟨"w", "sleep 5", 'C', ".", RUNNING, 42⟩]
        ⟨some "stop", some "0"⟩ ⟨7, true, 9, true, 0⟩).acts =
      [OsAction.signal 42 SIGKILL] ∧
    ¬ SIGKILL = SIGTERM := by
  constructor <;> decide

/-- Claim C4 (amended): in the ServiceManager-main implementation, kill on a
workload that is not RUNNING returns false, leaves every workload's state
unchanged and performs no OS-level operation; the control endpoint surfaces
this as a hard 500 ("Failed to terminate process"), not as a no-op success.
(The src/src implementation violates the original claim; see the
counterexample.) -/
theorem c4_amended_stop_not_running (cmds : List command) (idx : Nat)
    (cmd : command) (force : Bool) (env : OsEnv) (idStr : String) (id : Int)
    (fn : String) (hget : cmds[idx]? = some cmd)
    (hnr : ¬ cmd.Status = RUNNING) :
    SM.kill cmds idx force env = ⟨cmds, false, []⟩ ∧
    (stoi idStr = some id → 0 ≤ id → id < (cmds.length : Int) →
      id.toNat = idx → fn = "stop" ∨ fn = "kill" →
      SM.control cmds ⟨some fn, some idStr⟩ env =
        ⟨cmds, 500, "Failed to terminate process", []⟩) := by
  have hnotrun : ¬ (cmd.Status = RUNNING ∧ 0 < cmd.Pid) := fun hx => hnr hx.1
  have hk : ∀ f : Bool, SM.kill cmds idx f env = ⟨cmds, false, []⟩ := by
    intro f
    unfold SM.kill
    rw [hget]
    dsimp only
    rw [if_pos hnotrun]
  refine ⟨hk force, ?_⟩
  intro hstoi h0 hlt hidx hfn
  have hrange : ¬ (id < 0 ∨ (cmds.length : Int) ≤ id) := by omega
  have hdispatch : fn = "kill" ∨ fn = "end" ∨ fn = "stop" := by
    rcases hfn with rfl | rfl
    · exact Or.inr (Or.inr rfl)
    · exact Or.inl rfl
  have hnstart : ¬ fn = "start" := by
    rcases hfn with rfl | rfl <;> decide
  unfold SM.control
  dsimp only
  rw [hstoi]
  dsimp only
  rw [if_neg hrange, hidx, hget]
  dsimp only
  rw [if_neg hnstart, if_pos hdispatch, hk (fn == "kill")]
  rfl

/-- Witness for C4 (amended) at a concrete Dead workload. -/
theorem c4_witness :
    SM.kill [⟨"w", "sleep 5", 'C', ".", DEAD, -1⟩] 0 true ⟨7, true, 9, true, 0⟩ =
      ⟨[⟨"w", "sleep 5", 'C', ".", DEAD, -1⟩], false, []⟩ ∧
    SM.control [⟨"w", "sleep 5", 'C', ".", DEAD, -1⟩]
        ⟨some "stop", some "0"⟩ ⟨7, true, 9, true, 0⟩ =
      ⟨[⟨"w", "sleep 5", 'C', ".", DEAD, -1⟩], 500,
       "Failed to terminate process", []⟩ := by
  have h := c4_amended_stop_not_running [⟨"w", "sleep 5", 'C', ".", DEAD, -1⟩]
    0 ⟨"w", "sleep 5", 'C', ".", DEAD, -1⟩ true ⟨7, true, 9, true, 0⟩ "0" 0
    "stop" (by decide) (by decide)
  exact ⟨h.1, h.2 (by decide) (by decide) (by decide) (by decide) (Or.inl rfl)⟩

/-- Counterexample to C4 as stated, on the src/src implementation: workload
0 is DEAD but still carries the stale recorded pid 42 (exactly the state the
legacy kill leaves behind, as the second conjunct shows starting from a
RUNNING workload); a further kill call returns true rather than failing and
delivers another SIGKILL to pid 42 — an OS-level side effect on a
not-Running workload. -/
theorem c4_counterexample :
    Legacy.kill [⟨"w", "sleep 5", 'C', ".", DEAD, 42⟩] 0 true ⟨7, true, 9, true, 0⟩ =
      ⟨[⟨"w", "sleep 5", 'C', ".", DEAD, 42⟩], true, [OsAction.signal 42 SIGKILL]⟩ ∧
    (Legacy.kill
      (Legacy.kill [⟨"w", "sleep 5", 'C', ".", RUNNING, 42⟩] 0 true
        ⟨7, true, 9, true, 0⟩).cmds 0 true ⟨7, true, 9, true, 0⟩).ok = true := by
  constructor <;> decide

/-- Claim C6 (amended): in the ServiceManager-main implementation, for every
registry reachable over the control endpoint from a loaded configuration,
GET /process/list answers 200 with the JSON array whose i-th element is
built from the i-th workload and carries exactly the fields id (the index),
desc, status ("RUNNING" or "DEAD"), mode ("C" or "D") and pid, with pid = -1
whenever the status is DEAD. (The src/src list endpoint violates the
original claim; see the counterexample.) -/
theorem c6_amended_list_schema (lines : List String) (cfg cmds : List command)
    (hload : SM.loadConfiguration lines = some cfg)
    (hreach : SM.ReachableFrom (SM.init cfg) cmds) :
    (SM.listResp cmds).status = 200 ∧
    (SM.listResp cmds).body =
      "[\n" ++ String.intercalate ",\n" ((SM.entries cmds).map SM.renderEntry) ++
        "\n]" ∧
    (SM.entries cmds).length = cmds.length ∧
    (∀ i e, (SM.entries cmds)[i]? = some e →
      (∃ c, cmds[i]? = some c ∧ e = SM.entryOf i c) ∧
      e.id = i ∧
      (e.statusStr = "RUNNING" ∨ e.statusStr = "DEAD") ∧
      (e.modeStr = "C" ∨ e.modeStr = "D") ∧
      (e.statusStr = "DEAD" → e.pid = -1)) := by
  have hgood : GoodState cmds :=
    SM.reachable_good
      (SM.init_good (fun c hc => (SM.loadConfiguration_good hload c hc).1)) hreach
  refine ⟨rfl, rfl, SM.entries_length cmds, ?_⟩
  intro i e he
  rw [SM.entries_getElem? cmds i] at he
  cases hg : cmds[i]? with
  | none => rw [hg] at he; cases he
  | some c =>
    rw [hg] at he
    injection he with he
    subst he
    have hc := hgood c (List.getElem?_mem hg)
    refine ⟨⟨c, rfl, rfl⟩, rfl, ?_, ?_, ?_⟩
    · unfold SM.entryOf
      dsimp only
      by_cases hs : c.Status = RUNNING
      · rw [if_pos hs]; exact Or.inl rfl
      · rw [if_neg hs]; exact Or.inr rfl
    · unfold SM.entryOf
      dsimp only
      rcases hc.1 with hm | hm <;> rw [hm]
      · exact Or.inl rfl
      · exact Or.inr rfl
    · unfold SM.entryOf
      dsimp only
      intro hdead
      by_cases hs : c.Status = RUNNING
      · rw [if_pos hs] at hdead
        exact absurd hdead (by decide)
      · have hsd : c.Status = DEAD := by
          cases hcs : c.Status with
          | DEAD => rfl
          | RUNNING => exact absurd hcs hs
        exact hc.2 hsd

/-- Witness for C6 (amended) at a concrete one-workload configuration. -/
theorem c6_witness :
    (SM.listResp (SM.init [⟨"d", "sleep 5", 'C', ".", DEAD, -1⟩])).status = 200 ∧
    (SM.entryOf 0 ⟨"d", "sleep 5", 'C', ".", DEAD, -1⟩).pid = -1 := by
  have h := c6_amended_list_schema ["1", "d", "C", "sleep 5", "."]
    [⟨"d", "sleep 5", 'C', ".", DEAD, -1⟩]
    (SM.init [⟨"d", "sleep 5", 'C', ".", DEAD, -1⟩]) (by decide)
    SM.ReachableFrom.refl
  exact ⟨h.1, (h.2.2.2 0 (SM.entryOf 0 ⟨"d", "sleep 5", 'C', ".", DEAD, -1⟩)
    (by decide)).2.2.2.2 (by decide)⟩

/-- Counterexample to C6 as stated, on the src/src implementation: the list
body for a one-workload registry is exactly a desc/status object — the
strings "id", "mode" and "pid" do not occur anywhere in the body, so the
element has neither an id, nor a mode, nor a pid field (in particular no
pid = -1 for this DEAD workload). -/
theorem c6_counterexample :
    Legacy.listBody [⟨"d", "p", 'C', ".", DEAD, -1⟩] =
      "[\n  \x7b\"desc\": \"d\", \"status\": \"DEAD\"\x7d\n]\n" ∧
    strContains (Legacy.listBody [⟨"d", "p", 'C', ".", DEAD, -1⟩]) "pid" = false ∧
    strContains (Legacy.listBody [⟨"d", "p", 'C', ".", DEAD, -1⟩]) "mode" = false ∧
    strContains (Legacy.listBody [⟨"d", "p", 'C', ".", DEAD, -1⟩]) "id" = false := by
  refine ⟨?_, ?_, ?_, ?_⟩ <;> decide

/-- Claim C8 (amended): the ServiceManager-main loader aborts startup on a
malformed or negative count, and any configuration it accepts contains only
entries with mode 'C' or 'D' and nonempty description and path — so no
malformed entry is ever served, and on any load error no registry is served
at all. (The src/src loader violates the original claim; see the
counterexample.) -/
theorem c8_amended_config_validation :
    (∀ lines cfg, SM.startup lines = some cfg →
      ∀ c ∈ cfg, (c.Mode = 'C' ∨ c.Mode = 'D') ∧ ¬ c.Desc = "" ∧ ¬ c.Path = "" ∧
        c.Status = DEAD ∧ c.Pid = -1) ∧
    (∀ lines, readIntToken lines = none → SM.startup lines = none) ∧
    (∀ lines n rest, readIntToken lines = some (n, rest) → n < 0 →
      SM.startup lines = none) := by
  refine ⟨?_, ?_, ?_⟩
  · intro lines cfg hs c hc
    unfold SM.startup at hs
    cases hl : SM.loadConfiguration lines with
    | none => rw [hl] at hs; cases hs
    | some cfg0 =>
      rw [hl] at hs
      injection hs with hs
      subst hs
      rcases List.mem_map.mp hc with ⟨a, ha, rfl⟩
      have h := SM.loadConfiguration_good hl a ha
      exact ⟨h.1, h.2.1, h.2.2.1, rfl, rfl⟩
  · intro lines hnone
    unfold SM.startup SM.loadConfiguration
    rw [hnone]
    rfl
  · intro lines n rest hint hneg
    unfold SM.startup SM.loadConfiguration
    rw [hint]
    dsimp only
    rw [if_pos hneg]
    rfl

/-- Witness for C8 (amended): a non-numeric and a negative count both abort
startup. -/
theorem c8_witness :
    SM.startup ["abc"] = none ∧
    SM.startup ["-1", "d", "C", "p", "."] = none :=
  ⟨c8_amended_config_validation.2.1 ["abc"] (by decide),
   c8_amended_config_validation.2.2 ["-1", "d", "C", "p", "."] (-1)
     ["d", "C", "p", "."] (by decide) (by decide)⟩

/-- Counterexample to C8 as stated, on the src/src implementation: the same
configuration stream with the unknown mode character 'X' (rejected by the
documented loader) is loaded by the legacy ReadCmds without complaint and
served — legacy startup never fails on malformed content. -/
theorem c8_counterexample :
    Legacy.readCmds ' ' 0 ["1", "d", "X", "p", "."] =
      [⟨"d", "p", 'X', ".", DEAD, 0⟩] ∧
    SM.loadConfiguration ["1", "d", "X", "p", "."] = none := by
  constructor <;> decide
